import Mathlib

/-!
Shallow embedding of the time-decay-consensus voting engine
(src/decay.rs, src/threshold.rs, src/weight_engine.rs, src/verify.rs,
src/vote.rs, src/trust.rs, src/window.rs, src/history.rs).

Modelling conventions: f64 values become real numbers; chrono timestamps
become integer Unix seconds (chrono num_seconds subtraction is then exact
integer subtraction); Rust HashMap caches become association lists whose
lookup returns the most recent insertion for a key (the same observable
lookup semantics as HashMap insert/get); the ed25519 signature scheme is
idealised as a perfectly binding signature that records the verifying key
and the exact message bytes signed.
-/

noncomputable section

open scoped Classical

/-- Modelled from ed25519_dalek: an idealised signature value recording the
public key of the signer and the exact message bytes that were signed. -/
structure EdSignature where
  pk : Nat
  msg : String
  deriving DecidableEq

/-- Modelled from ed25519_dalek: a signing (secret) key. -/
structure SigningKey where
  sk : Nat
  deriving DecidableEq

/-- Modelled from ed25519_dalek: a verifying (public) key. -/
structure VerifyingKey where
  pk : Nat
  deriving DecidableEq

/-- Modelled from ed25519_dalek: derive the verifying key of a signing key. -/
def SigningKey.verifyingKey (k : SigningKey) : VerifyingKey :=
  ⟨k.sk⟩

/-- Modelled from ed25519_dalek Signer::sign, idealised: the signature binds
the signer's public key and the exact message bytes. -/
def SigningKey.sign (k : SigningKey) (message : String) : EdSignature :=
  ⟨k.sk, message⟩

/-- Modelled from ed25519_dalek Verifier::verify, idealised: verification
succeeds exactly when the signature was produced over the same message bytes
by the holder of the matching secret key. -/
def VerifyingKey.verify (pk : VerifyingKey) (message : String) (sig : EdSignature) : Bool :=
  sig.pk == pk.pk && sig.msg == message

/-- Modelled from chrono: the Display rendering of a DateTime of Utc
("YYYY-MM-DD HH:MM:SS UTC"), abstracted as an injective rendering of the
integer timestamp carrying a Display-specific suffix. -/
def displayUtc (t : ℤ) : String :=
  toString t ++ " UTC"

/-- Modelled from chrono: the to_rfc3339 rendering of a DateTime of Utc
("YYYY-MM-DDTHH:MM:SS+00:00"), abstracted as an injective rendering of the
integer timestamp carrying the RFC 3339 suffix; byte-distinct from the
Display rendering of the same instant, as in chrono. -/
def toRfc3339 (t : ℤ) : String :=
  toString t ++ "+00:00"

/-- src/vote.rs: DecayType. -/
inductive DecayType where
  | Linear
  | Exponential
  | Stepped
  deriving DecidableEq

/-- src/vote.rs: SignedVote. -/
structure SignedVote where
  voter_id : String
  proposal_id : String
  timestamp : ℤ
  original_weight : ℝ
  decay_model : DecayType
  signature : EdSignature
  public_key : VerifyingKey

/-- src/vote.rs sign_vote: signs the message format "{voter_id}{timestamp.to_rfc3339()}". -/
def sign_vote (voter_id : String) (signing_key : SigningKey) (timestamp : ℤ) : EdSignature :=
  signing_key.sign (voter_id ++ toRfc3339 timestamp)

/-- src/verify.rs: VerificationError. -/
inductive VerificationError where
  | InvalidSignature
  | TimestampExpired
  | TimestampInFuture
  deriving DecidableEq

/-- src/verify.rs SignedVote::new: builds the canonical message
"{voter_id}:{proposal_id}:{timestamp}" (Display rendering of the timestamp)
and signs it. -/
def SignedVote.new (voter_id proposal_id : String) (original_weight : ℝ)
    (timestamp : ℤ) (decay_model : DecayType) (signing_key : SigningKey) : SignedVote :=
  let message := voter_id ++ ":" ++ proposal_id ++ ":" ++ displayUtc timestamp
  let signature := signing_key.sign message
  let public_key := signing_key.verifyingKey
  { voter_id := voter_id, proposal_id := proposal_id, timestamp := timestamp,
    original_weight := original_weight, decay_model := decay_model,
    signature := signature, public_key := public_key }

/-- src/verify.rs SignedVote::verify: recomputes the canonical message
"{voter_id}:{proposal_id}:{timestamp}", computes age = now - timestamp in
seconds, rejects age < -5 as TimestampInFuture, then age > max_age_secs as
TimestampExpired, then checks the signature. The wall clock now, sampled at
call time in the Rust code, is an explicit parameter here. -/
def SignedVote.verify (v : SignedVote) (now : ℤ) (max_age_secs : ℤ) :
    Except VerificationError Unit :=
  let message := v.voter_id ++ ":" ++ v.proposal_id ++ ":" ++ displayUtc v.timestamp
  let age_secs := now - v.timestamp
  if age_secs < -5 then .error .TimestampInFuture
  else if age_secs > max_age_secs then .error .TimestampExpired
  else if v.public_key.verify message v.signature then .ok ()
  else .error .InvalidSignature

/-- src/decay.rs: LinearDecay. -/
structure LinearDecay where
  rate : ℝ

/-- src/decay.rs LinearDecay::compute_weight:
max(original - rate * elapsed, 0.1 * original). -/
def LinearDecay.compute_weight (m : LinearDecay) (original_weight elapsed_time : ℝ) : ℝ :=
  max (original_weight - m.rate * elapsed_time) (0.1 * original_weight)

/-- src/decay.rs: ExponentialDecay. -/
structure ExponentialDecay where
  rate : ℝ

/-- src/decay.rs ExponentialDecay::compute_weight:
max(original * exp(-rate * elapsed), 0.1 * original). -/
def ExponentialDecay.compute_weight (m : ExponentialDecay) (original_weight elapsed_time : ℝ) : ℝ :=
  max (original_weight * Real.exp (-m.rate * elapsed_time)) (0.1 * original_weight)

/-- src/decay.rs: SteppedDecay, decay_steps is a list of (time, multiplier). -/
structure SteppedDecay where
  decay_steps : List (ℝ × ℝ)

/-- src/decay.rs SteppedDecay::compute_weight: walk the step list in order,
the last entry whose time is at most elapsed sets the multiplier (default 1),
then max(original * multiplier, 0.1 * original). -/
def SteppedDecay.compute_weight (m : SteppedDecay) (original_weight elapsed_time : ℝ) : ℝ :=
  max (original_weight *
      (m.decay_steps.foldl (fun mult p => if p.1 ≤ elapsed_time then p.2 else mult) 1))
    (0.1 * original_weight)

/-- src/threshold.rs: EscalationPattern. -/
inductive EscalationPattern where
  | Linear (rate : ℝ)
  | Exponential (factor : ℝ)
  | Sigmoid (k midpoint : ℝ)

/-- src/threshold.rs: ProgressionProfile. -/
inductive ProgressionProfile where
  | Conservative
  | Aggressive
  | Adaptive

/-- src/threshold.rs: ThresholdEscalator. -/
structure ThresholdEscalator where
  base_threshold : ℝ
  ceiling : ℝ
  pattern : EscalationPattern
  emergency_override : Bool
  profile : ProgressionProfile
  total_votes : ℕ
  min_vote_count : ℕ

/-- src/threshold.rs ThresholdEscalator::current_threshold. -/
def ThresholdEscalator.current_threshold (esc : ThresholdEscalator) (elapsed_secs : ℕ) : ℝ :=
  if esc.emergency_override then esc.ceiling
  else
    match esc.pattern with
    | .Linear rate =>
        min (esc.base_threshold + rate * (elapsed_secs : ℝ)) esc.ceiling
    | .Exponential factor =>
        min (esc.base_threshold + (1 - Real.exp (-factor * (elapsed_secs : ℝ)))) esc.ceiling
    | .Sigmoid k midpoint =>
        esc.base_threshold +
          (1 / (1 + Real.exp (-k * ((elapsed_secs : ℝ) - midpoint)))) *
            (esc.ceiling - esc.base_threshold)

/-- src/threshold.rs ThresholdEscalator::threshold_with_profile: elapsed
seconds is (now - start).num_seconds().max(0) as u64, rescaled per profile,
then passed to current_threshold. -/
def ThresholdEscalator.threshold_with_profile (esc : ThresholdEscalator) (now start : ℤ) : ℝ :=
  if esc.emergency_override then esc.ceiling
  else
    let elapsed_secs : ℕ := (max (now - start) 0).toNat
    let adjusted_secs : ℕ :=
      match esc.profile with
      | .Conservative => elapsed_secs
      | .Aggressive => elapsed_secs * 2
      | .Adaptive => if esc.total_votes < 3 then elapsed_secs * 3 else elapsed_secs
    esc.current_threshold adjusted_secs

/-- src/trust.rs: TrustEngine, a table mapping validator id to bonus. -/
structure TrustEngine where
  trusted_validators : List (String × ℝ)

/-- src/trust.rs TrustEngine::new: the built-in trust table. -/
def TrustEngine.new : TrustEngine :=
  ⟨[("validator_001", 1.2), ("validator_002", 1.1)]⟩

/-- src/trust.rs TrustEngine::get_bonus: exact-match lookup, default 1.0. -/
def TrustEngine.get_bonus (t : TrustEngine) (validator_id : String) : ℝ :=
  (t.trusted_validators.lookup validator_id).getD 1.0

/-- src/weight_engine.rs: VoteRecord (the weight-history entry). -/
structure WeightEngine.VoteRecord where
  vote_id : String
  weight : ℝ
  timestamp : ℤ

/-- src/weight_engine.rs: WeightEngine, with its memo cache and append-only
history log. -/
structure WeightEngine where
  cache : List (String × ℝ)
  history : List WeightEngine.VoteRecord

/-- src/weight_engine.rs WeightEngine::new. -/
def WeightEngine.new : WeightEngine :=
  ⟨[], []⟩

/-- src/weight_engine.rs calculate_weight lines 38-49: dispatch on the vote's
decay kind with the pipeline-fixed rates (exponential 0.005, linear 0.001,
stepped breakpoints 60/180/300 with multipliers 0.8/0.5/0.2). -/
def decayDispatch (d : DecayType) (original_weight age : ℝ) : ℝ :=
  match d with
  | .Exponential => (ExponentialDecay.mk 0.005).compute_weight original_weight age
  | .Linear => (LinearDecay.mk 0.001).compute_weight original_weight age
  | .Stepped =>
      (SteppedDecay.mk [(60, 0.8), (180, 0.5), (300, 0.2)]).compute_weight original_weight age

/-- src/weight_engine.rs WeightEngine::calculate_weight: return the cached
weight for the voter id if present; otherwise compute
age = (now - vote.timestamp) in seconds (no clamping in the source), decay,
apply the optional trust bonus, cache under voter_id, append a history
record, and return. State passing makes the &mut self explicit. -/
def WeightEngine.calculate_weight (e : WeightEngine) (vote : SignedVote) (now : ℤ)
    (trust : Option TrustEngine) : ℝ × WeightEngine :=
  match e.cache.lookup vote.voter_id with
  | some w => (w, e)
  | none =>
      let age : ℝ := ((now - vote.timestamp : ℤ) : ℝ)
      let decayed := decayDispatch vote.decay_model vote.original_weight age
      let weight :=
        match trust with
        | some trust_engine => decayed * trust_engine.get_bonus vote.voter_id
        | none => decayed
      (weight,
        { cache := (vote.voter_id, weight) :: e.cache,
          history := e.history ++ [⟨vote.voter_id, weight, now⟩] })

/-- src/window.rs: VotingWindow. -/
structure VotingWindow where
  start_time : ℤ
  duration_secs : ℕ
  grace_secs : ℕ

/-- src/window.rs VotingWindow::time_left:
(start_time + duration_secs) - now, in signed seconds. -/
def VotingWindow.time_left (w : VotingWindow) (now : ℤ) : ℤ :=
  (w.start_time + (w.duration_secs : ℤ)) - now

/-- src/window.rs VotingWindow::should_extend:
time_left(now) at most 20 seconds and weight at least 0.9 * threshold. -/
def VotingWindow.should_extend (w : VotingWindow) (now : ℤ)
    (current_weight current_threshold : ℝ) : Prop :=
  w.time_left now ≤ 20 ∧ current_weight ≥ 0.9 * current_threshold

/-- src/history.rs: VoteRecord (the outcome record). -/
structure VoteRecord where
  vote_id : String
  weight : ℝ
  threshold : ℝ
  passed : Bool
  timestamp : ℤ

/-- src/history.rs: HistoryAnalyzer. -/
structure HistoryAnalyzer where
  records : List VoteRecord

/-- src/history.rs HistoryAnalyzer::record_vote: append-only insert. -/
def HistoryAnalyzer.record_vote (h : HistoryAnalyzer) (record : VoteRecord) : HistoryAnalyzer :=
  ⟨h.records ++ [record]⟩

/-- src/history.rs HistoryAnalyzer::average_margin:
sum of (weight - threshold) divided by max(len, 1). -/
def HistoryAnalyzer.average_margin (h : HistoryAnalyzer) : ℝ :=
  ((h.records.map (fun r => r.weight - r.threshold)).sum) /
    ((max h.records.length 1 : ℕ) : ℝ)

/-- src/history.rs HistoryAnalyzer::suggested_base_threshold. -/
def HistoryAnalyzer.suggested_base_threshold (h : HistoryAnalyzer) : ℝ :=
  if h.average_margin < 0 then 0.55 else 0.50

/-- Side conditions on an escalation pattern under which the threshold bound
invariant is claimed: escalation rates are non-negative (the Sigmoid shape
needs no condition). -/
def patternRateNonneg : EscalationPattern → Prop
  | .Linear rate => 0 ≤ rate
  | .Exponential factor => 0 ≤ factor
  | .Sigmoid _ _ => True

/-- A concrete future-dated vote: its timestamp is 10 seconds after the clock
reading 0 that the weight engine will be given. -/
def futureVote : SignedVote :=
  { voter_id := "a", proposal_id := "p", timestamp := 10, original_weight := 1,
    decay_model := DecayType.Linear, signature := ⟨0, "m"⟩, public_key := ⟨0⟩ }

end

/-- Helper: the stepped-decay multiplier fold stays below any bound that
dominates the accumulator and every multiplier in the step list. -/
theorem stepFold_le_bound (t b : ℝ) :
    ∀ (steps : List (ℝ × ℝ)) (a : ℝ), a ≤ b → (∀ p ∈ steps, p.2 ≤ b) →
      steps.foldl (fun mult p => if p.1 ≤ t then p.2 else mult) a ≤ b := by
  intro steps
  induction steps with
  | nil => intro a ha _; simpa using ha
  | cons q rest ih =>
      intro a ha hall
      by_cases hq : q.1 ≤ t
      · simpa [List.foldl_cons, hq] using
          ih q.2 (hall q (List.mem_cons_self _ _)) fun p hp => hall p (List.mem_cons_of_mem _ hp)
      · simpa [List.foldl_cons, hq] using
          ih a ha fun p hp => hall p (List.mem_cons_of_mem _ hp)

/-- Helper: when every step multiplier is dominated by the first accumulator
and later steps carry smaller-or-equal multipliers, the stepped multiplier
selected by the fold is antitone in the elapsed time. -/
theorem stepFold_anti (t1 t2 : ℝ) (ht : t1 ≤ t2) :
    ∀ (steps : List (ℝ × ℝ)) (a1 a2 : ℝ), a2 ≤ a1 →
      (∀ p ∈ steps, p.2 ≤ a1) →
      steps.Pairwise (fun p q => q.2 ≤ p.2) →
      steps.foldl (fun mult p => if p.1 ≤ t2 then p.2 else mult) a2 ≤
        steps.foldl (fun mult p => if p.1 ≤ t1 then p.2 else mult) a1 := by
  intro steps
  induction steps with
  | nil => intro a1 a2 h _ _; simpa using h
  | cons q rest ih =>
      intro a1 a2 hle hall hpair
      have hallq : q.2 ≤ a1 := hall q (List.mem_cons_self _ _)
      have hallrest : ∀ p ∈ rest, p.2 ≤ a1 := fun p hp => hall p (List.mem_cons_of_mem _ hp)
      have hheadrest : ∀ p ∈ rest, p.2 ≤ q.2 := (List.pairwise_cons.mp hpair).1
      have hpairrest := (List.pairwise_cons.mp hpair).2
      by_cases hq1 : q.1 ≤ t1
      · have hq2 : q.1 ≤ t2 := le_trans hq1 ht
        simpa [List.foldl_cons, hq1, hq2] using
          ih q.2 q.2 le_rfl hheadrest hpairrest
      · by_cases hq2 : q.1 ≤ t2
        · simpa [List.foldl_cons, hq1, hq2] using
            ih a1 q.2 hallq hallrest hpairrest
        · simpa [List.foldl_cons, hq1, hq2] using
            ih a1 a2 hle hallrest hpairrest

/-- C1: for each decay model variant (Linear, Exponential, Stepped), on
non-negative elapsed time and original weight, with the variant's rate
non-negative and every stepped multiplier at most 1, compute_weight stays in
the interval from 0.1 times the original weight up to the original weight. -/
theorem decay_compute_weight_bounds (lin : LinearDecay) (expo : ExponentialDecay)
    (st : SteppedDecay) (w t : ℝ) (hw : 0 ≤ w) (ht : 0 ≤ t)
    (hlin : 0 ≤ lin.rate) (hexp : 0 ≤ expo.rate)
    (hst : ∀ p ∈ st.decay_steps, p.2 ≤ (1 : ℝ)) :
    (0.1 * w ≤ lin.compute_weight w t ∧ lin.compute_weight w t ≤ w) ∧
    (0.1 * w ≤ expo.compute_weight w t ∧ expo.compute_weight w t ≤ w) ∧
    (0.1 * w ≤ st.compute_weight w t ∧ st.compute_weight w t ≤ w) := by
  simp only [LinearDecay.compute_weight, ExponentialDecay.compute_weight,
    SteppedDecay.compute_weight]
  refine ⟨⟨le_max_right _ _, ?_⟩, ⟨le_max_right _ _, ?_⟩, ⟨le_max_right _ _, ?_⟩⟩
  · apply max_le
    · nlinarith
    · linarith
  · apply max_le
    · have hexp1 : Real.exp (-expo.rate * t) ≤ 1 := by
        rw [show (1 : ℝ) = Real.exp 0 from Real.exp_zero.symm]
        exact Real.exp_le_exp.mpr (by nlinarith)
      exact mul_le_of_le_one_right hw hexp1
    · linarith
  · apply max_le
    · have hm : st.decay_steps.foldl (fun mult p => if p.1 ≤ t then p.2 else mult) 1 ≤ 1 :=
        stepFold_le_bound t 1 st.decay_steps 1 le_rfl hst
      exact mul_le_of_le_one_right hw hm
    · linarith

theorem decay_compute_weight_bounds_witness :
    (0.1 * (1 : ℝ) ≤ (LinearDecay.mk 1).compute_weight 1 3 ∧
      (LinearDecay.mk 1).compute_weight 1 3 ≤ 1) ∧
    (0.1 * (1 : ℝ) ≤ (ExponentialDecay.mk 2).compute_weight 1 3 ∧
      (ExponentialDecay.mk 2).compute_weight 1 3 ≤ 1) ∧
    (0.1 * (1 : ℝ) ≤ (SteppedDecay.mk [(5, 0.8)]).compute_weight 1 3 ∧
      (SteppedDecay.mk [(5, 0.8)]).compute_weight 1 3 ≤ 1) :=
  decay_compute_weight_bounds (LinearDecay.mk 1) (ExponentialDecay.mk 2)
    (SteppedDecay.mk [(5, 0.8)]) 1 3 (by norm_num) (by norm_num) (by norm_num) (by norm_num)
    (by intro p hp; rw [List.mem_singleton] at hp; subst hp; norm_num)

/-- C7: for each decay model variant (Linear, Exponential, Stepped), under
the same side conditions as the bound invariant plus a non-increasing step
multiplier list, compute_weight is non-increasing in the elapsed time. -/
theorem decay_compute_weight_antitone (lin : LinearDecay) (expo : ExponentialDecay)
    (st : SteppedDecay) (w e1 e2 : ℝ) (hw : 0 ≤ w) (h1 : 0 ≤ e1) (h12 : e1 ≤ e2)
    (hlin : 0 ≤ lin.rate) (hexp : 0 ≤ expo.rate)
    (hst1 : ∀ p ∈ st.decay_steps, p.2 ≤ (1 : ℝ))
    (hst2 : st.decay_steps.Pairwise (fun p q => q.2 ≤ p.2)) :
    lin.compute_weight w e2 ≤ lin.compute_weight w e1 ∧
    expo.compute_weight w e2 ≤ expo.compute_weight w e1 ∧
    st.compute_weight w e2 ≤ st.compute_weight w e1 := by
  simp only [LinearDecay.compute_weight, ExponentialDecay.compute_weight,
    SteppedDecay.compute_weight]
  refine ⟨max_le_max ?_ le_rfl, max_le_max ?_ le_rfl, max_le_max ?_ le_rfl⟩
  · nlinarith
  · have hmono : Real.exp (-expo.rate * e2) ≤ Real.exp (-expo.rate * e1) :=
      Real.exp_le_exp.mpr (by nlinarith)
    exact mul_le_mul_of_nonneg_left hmono hw
  · exact mul_le_mul_of_nonneg_left
      (stepFold_anti e1 e2 h12 st.decay_steps 1 1 le_rfl hst1 hst2) hw

theorem decay_compute_weight_antitone_witness :
    (LinearDecay.mk 1).compute_weight 1 7 ≤ (LinearDecay.mk 1).compute_weight 1 2 ∧
    (ExponentialDecay.mk 2).compute_weight 1 7 ≤ (ExponentialDecay.mk 2).compute_weight 1 2 ∧
    (SteppedDecay.mk [(5, 0.8)]).compute_weight 1 7 ≤
      (SteppedDecay.mk [(5, 0.8)]).compute_weight 1 2 :=
  decay_compute_weight_antitone (LinearDecay.mk 1) (ExponentialDecay.mk 2)
    (SteppedDecay.mk [(5, 0.8)]) 1 2 7 (by norm_num) (by norm_num) (by norm_num) (by norm_num)
    (by norm_num)
    (by intro p hp; rw [List.mem_singleton] at hp; subst hp; norm_num)
    (by simp)

/-- C2: for a configuration with base_threshold at most ceiling and a
non-negative escalation rate, without the emergency override the current
threshold lies between base_threshold and ceiling for every elapsed time and
every pattern (Linear, Exponential, Sigmoid); with the override set, both
current_threshold and threshold_with_profile return exactly the ceiling. -/
theorem threshold_bounds_and_override (esc : ThresholdEscalator) (t : ℕ) (now start : ℤ)
    (hbc : esc.base_threshold ≤ esc.ceiling) (hpat : patternRateNonneg esc.pattern) :
    (esc.emergency_override = true →
      esc.current_threshold t = esc.ceiling ∧
        esc.threshold_with_profile now start = esc.ceiling) ∧
    (esc.emergency_override = false →
      esc.base_threshold ≤ esc.current_threshold t ∧
        esc.current_threshold t ≤ esc.ceiling) := by
  constructor
  · intro hov
    exact ⟨by simp [ThresholdEscalator.current_threshold, hov],
      by simp [ThresholdEscalator.threshold_with_profile, hov]⟩
  · intro hov
    cases hpattern : esc.pattern with
    | Linear rate =>
        rw [hpattern] at hpat
        simp only [patternRateNonneg] at hpat
        simp only [ThresholdEscalator.current_threshold, hov, hpattern, Bool.false_eq_true,
          if_false]
        refine ⟨le_min ?_ hbc, min_le_right _ _⟩
        have hr : 0 ≤ rate * (t : ℝ) := mul_nonneg hpat (Nat.cast_nonneg _)
        linarith
    | Exponential factor =>
        rw [hpattern] at hpat
        simp only [patternRateNonneg] at hpat
        simp only [ThresholdEscalator.current_threshold, hov, hpattern, Bool.false_eq_true,
          if_false]
        have hfe : Real.exp (-factor * (t : ℝ)) ≤ 1 := by
          rw [show (1 : ℝ) = Real.exp 0 from Real.exp_zero.symm]
          refine Real.exp_le_exp.mpr ?_
          have hr : 0 ≤ factor * (t : ℝ) := mul_nonneg hpat (Nat.cast_nonneg _)
          linarith
        refine ⟨le_min ?_ hbc, min_le_right _ _⟩
        linarith
    | Sigmoid k midpoint =>
        simp only [ThresholdEscalator.current_threshold, hov, hpattern, Bool.false_eq_true,
          if_false]
        have hpos : 0 < 1 + Real.exp (-k * ((t : ℝ) - midpoint)) := by positivity
        have hs0 : 0 ≤ 1 / (1 + Real.exp (-k * ((t : ℝ) - midpoint))) := by positivity
        have hs1 : 1 / (1 + Real.exp (-k * ((t : ℝ) - midpoint))) ≤ 1 := by
          rw [div_le_one hpos]
          have he := Real.exp_nonneg (-k * ((t : ℝ) - midpoint))
          linarith
        have hrange : 0 ≤ esc.ceiling - esc.base_threshold := sub_nonneg.mpr hbc
        constructor
        · nlinarith
        · nlinarith

theorem threshold_bounds_and_override_witness :
    ((0.5 : ℝ) ≤ 0.9 ∧ patternRateNonneg (EscalationPattern.Linear 0.01)) ∧
    ((ThresholdEscalator.mk 0.5 0.9 (EscalationPattern.Linear 0.01) false
        ProgressionProfile.Conservative 0 3).emergency_override = true →
      (ThresholdEscalator.mk 0.5 0.9 (EscalationPattern.Linear 0.01) false
        ProgressionProfile.Conservative 0 3).current_threshold 10 = 0.9 ∧
      (ThresholdEscalator.mk 0.5 0.9 (EscalationPattern.Linear 0.01) false
        ProgressionProfile.Conservative 0 3).threshold_with_profile 5 0 = 0.9) ∧
    ((ThresholdEscalator.mk 0.5 0.9 (EscalationPattern.Linear 0.01) false
        ProgressionProfile.Conservative 0 3).emergency_override = false →
      (0.5 : ℝ) ≤ (ThresholdEscalator.mk 0.5 0.9 (EscalationPattern.Linear 0.01) false
        ProgressionProfile.Conservative 0 3).current_threshold 10 ∧
      (ThresholdEscalator.mk 0.5 0.9 (EscalationPattern.Linear 0.01) false
        ProgressionProfile.Conservative 0 3).current_threshold 10 ≤ 0.9) :=
  ⟨⟨by norm_num, by simp only [patternRateNonneg]; norm_num⟩,
    threshold_bounds_and_override
      (ThresholdEscalator.mk 0.5 0.9 (EscalationPattern.Linear 0.01) false
        ProgressionProfile.Conservative 0 3) 10 5 0 (by norm_num)
      (by simp only [patternRateNonneg]; norm_num)⟩

/-- C4: when the memo cache already holds an entry for the vote's voter_id,
calculate_weight returns that cached weight and leaves the whole engine state
(cache and history log) unchanged, for every proposal_id, timestamp, decay
kind, original weight and trust-engine argument. -/
theorem calculate_weight_cache_hit (e : WeightEngine) (v : SignedVote) (now : ℤ)
    (trust : Option TrustEngine) (w : ℝ)
    (h : e.cache.lookup v.voter_id = some w) :
    e.calculate_weight v now trust = (w, e) := by
  unfold WeightEngine.calculate_weight
  rw [h]

theorem calculate_weight_cache_hit_witness :
    (WeightEngine.mk [("alice", (2 : ℝ))] []).cache.lookup "alice" = some (2 : ℝ) ∧
    (WeightEngine.mk [("alice", (2 : ℝ))] []).calculate_weight
      { voter_id := "alice", proposal_id := "p1", timestamp := 0, original_weight := 7,
        decay_model := DecayType.Stepped, signature := ⟨0, "m"⟩, public_key := ⟨0⟩ }
      5 (some TrustEngine.new) = ((2 : ℝ), WeightEngine.mk [("alice", (2 : ℝ))] []) :=
  ⟨rfl, calculate_weight_cache_hit _ _ _ _ _ rfl⟩

/-- C8: should_extend holds exactly when time_left(now), that is
(start_time + duration_secs) - now, is at most 20 seconds and the current
weight is at least 0.9 times the current threshold. -/
theorem should_extend_iff (w : VotingWindow) (now : ℤ) (cw ct : ℝ) :
    w.should_extend now cw ct ↔
      (w.start_time + (w.duration_secs : ℤ) - now ≤ 20 ∧ 0.9 * ct ≤ cw) := by
  simp [VotingWindow.should_extend, VotingWindow.time_left, ge_iff_le]

/-- C9: average_margin is the arithmetic mean of (weight - threshold) over
all recorded vote records, and is exactly 0 on an empty record list. -/
theorem average_margin_spec (h : HistoryAnalyzer) :
    h.average_margin =
      if h.records.length = 0 then 0
      else ((h.records.map (fun r => r.weight - r.threshold)).sum) / (h.records.length : ℝ) := by
  by_cases hl : h.records.length = 0
  · have hnil : h.records = [] := List.length_eq_zero.mp hl
    simp [HistoryAnalyzer.average_margin, hnil]
  · have hmax : max h.records.length 1 = h.records.length :=
      Nat.max_eq_left (Nat.one_le_iff_ne_zero.mpr hl)
    simp [HistoryAnalyzer.average_margin, hmax, hl]

/-- C5: verify computes age = now - timestamp and returns TimestampInFuture
exactly when age < -5; otherwise TimestampExpired exactly when
age > max_age_secs; otherwise InvalidSignature exactly when the cryptographic
check of the recomputed canonical message fails; otherwise Ok. The embedding
of verify is a pure function of the vote and the sampled clock, so it
modifies no state. -/
theorem verify_result_characterization (v : SignedVote) (now max_age_secs : ℤ) :
    (v.verify now max_age_secs = .error .TimestampInFuture ↔ now - v.timestamp < -5) ∧
    (v.verify now max_age_secs = .error .TimestampExpired ↔
      ¬ now - v.timestamp < -5 ∧ max_age_secs < now - v.timestamp) ∧
    (v.verify now max_age_secs = .error .InvalidSignature ↔
      ¬ now - v.timestamp < -5 ∧ ¬ max_age_secs < now - v.timestamp ∧
        v.public_key.verify (v.voter_id ++ ":" ++ v.proposal_id ++ ":" ++ displayUtc v.timestamp)
          v.signature = false) ∧
    (v.verify now max_age_secs = .ok () ↔
      ¬ now - v.timestamp < -5 ∧ ¬ max_age_secs < now - v.timestamp ∧
        v.public_key.verify (v.voter_id ++ ":" ++ v.proposal_id ++ ":" ++ displayUtc v.timestamp)
          v.signature = true) := by
  by_cases h1 : now - v.timestamp < -5
  · simp [SignedVote.verify, h1]
  · by_cases h2 : now - v.timestamp > max_age_secs
    · simp [SignedVote.verify, h1, h2]
    · cases hb : v.public_key.verify
        (v.voter_id ++ ":" ++ v.proposal_id ++ ":" ++ displayUtc v.timestamp) v.signature <;>
        simp [SignedVote.verify, h1, h2, hb]

/-- C10: two signed votes that agree on voter_id, proposal_id, timestamp,
signature and public_key, but may differ in original_weight and decay_model,
verify to the same result at the same clock reading and max age: the weight
and decay kind are not part of the signed canonical message. -/
theorem verify_ignores_weight_and_decay (v1 v2 : SignedVote) (now max_age_secs : ℤ)
    (hvid : v1.voter_id = v2.voter_id) (hpid : v1.proposal_id = v2.proposal_id)
    (hts : v1.timestamp = v2.timestamp) (hsig : v1.signature = v2.signature)
    (hpk : v1.public_key = v2.public_key) :
    v1.verify now max_age_secs = v2.verify now max_age_secs := by
  unfold SignedVote.verify
  rw [hvid, hpid, hts, hsig, hpk]

theorem verify_ignores_weight_and_decay_witness :
    SignedVote.verify
      { voter_id := "a", proposal_id := "p", timestamp := 0, original_weight := 1,
        decay_model := DecayType.Linear, signature := ⟨3, "m"⟩, public_key := ⟨3⟩ }
      2 300 =
    SignedVote.verify
      { voter_id := "a", proposal_id := "p", timestamp := 0, original_weight := 42,
        decay_model := DecayType.Stepped, signature := ⟨3, "m"⟩, public_key := ⟨3⟩ }
      2 300 :=
  verify_ignores_weight_and_decay _ _ 2 300 rfl rfl rfl rfl rfl

/-- C6 counterexample: a signature produced by sign_vote (which signs the
message "{voter_id}{timestamp.to_rfc3339()}") fails verify (which checks the
message "{voter_id}:{proposal_id}:{timestamp}" in Display rendering) even
with the matching public key, an unmodified vote and a timestamp inside the
tolerance window. -/
theorem sign_vote_verify_mismatch_counterexample :
    SignedVote.verify
      { voter_id := "v", proposal_id := "p", timestamp := 0, original_weight := 1,
        decay_model := DecayType.Linear,
        signature := sign_vote "v" ⟨0⟩ 0,
        public_key := SigningKey.verifyingKey ⟨0⟩ }
      0 300 = .error .InvalidSignature := by
  rfl

/-- C6 amended: SignedVote::new and verify build the canonical message with
byte-identical serialization "{voter_id}:{proposal_id}:{timestamp}", so a
vote constructed by SignedVote::new, verified with the matching public key on
unmodified fields and a timestamp inside the tolerance window, yields Ok;
sign_vote, by contrast, signs "{voter_id}{timestamp.to_rfc3339()}" and its
signatures fail verification. -/
theorem signed_vote_new_roundtrip (voter_id proposal_id : String) (w : ℝ) (ts : ℤ)
    (d : DecayType) (k : SigningKey) (now max_age_secs : ℤ)
    (h1 : -5 ≤ now - ts) (h2 : now - ts ≤ max_age_secs) :
    (SignedVote.new voter_id proposal_id w ts d k).verify now max_age_secs = .ok () := by
  simp [SignedVote.new, SignedVote.verify, SigningKey.sign, SigningKey.verifyingKey,
    VerifyingKey.verify, not_lt.mpr h1, not_lt.mpr h2]

theorem signed_vote_new_roundtrip_witness :
    (-5 : ℤ) ≤ 130 - 100 ∧ (130 : ℤ) - 100 ≤ 300 ∧
    (SignedVote.new "alice" "prop-1" 1 100 DecayType.Exponential ⟨7⟩).verify 130 300 = .ok () :=
  ⟨by norm_num, by norm_num,
    signed_vote_new_roundtrip "alice" "prop-1" 1 100 DecayType.Exponential ⟨7⟩ 130 300
      (by norm_num) (by norm_num)⟩

/-- C3 counterexample: the weight engine does not clamp the vote age to be
non-negative. On a cache miss with a future-dated vote (timestamp 10, clock
0) under Linear decay, the age passed to the decay model is -10 and the
decayed pre-trust weight 1.01 strictly exceeds the original weight 1, so it
is not compute_weight(original_weight, 0) = 1. -/
theorem calculate_weight_future_vote_counterexample :
    futureVote.original_weight <
      ((WeightEngine.new).calculate_weight futureVote 0 none).1 := by
  show (1 : ℝ) < _
  simp only [WeightEngine.calculate_weight, WeightEngine.new, futureVote, List.lookup_nil,
    decayDispatch, LinearDecay.compute_weight]
  refine lt_max_iff.mpr (Or.inl ?_)
  push_cast
  norm_num

/-- C3 amended: on a cache miss the age passed to the selected decay model is
now - vote.timestamp in seconds, with no clamping; consequently, for a vote
whose timestamp is at or after now and whose decay kind is Linear, the
decayed (pre-trust-bonus) weight is at least original_weight (it can exceed
it), rather than compute_weight(original_weight, 0). -/
theorem calculate_weight_age_unclamped (e : WeightEngine) (v : SignedVote) (now : ℤ)
    (hmiss : e.cache.lookup v.voter_id = none) :
    (e.calculate_weight v now none).1 =
      decayDispatch v.decay_model v.original_weight ((now - v.timestamp : ℤ) : ℝ) ∧
    (v.decay_model = DecayType.Linear → now ≤ v.timestamp → 0 ≤ v.original_weight →
      v.original_weight ≤ (e.calculate_weight v now none).1) := by
  have hcw : (e.calculate_weight v now none).1 =
      decayDispatch v.decay_model v.original_weight ((now - v.timestamp : ℤ) : ℝ) := by
    unfold WeightEngine.calculate_weight
    rw [hmiss]
  refine ⟨hcw, fun hd hts hw => ?_⟩
  rw [hcw, hd]
  have hage : ((now - v.timestamp : ℤ) : ℝ) ≤ 0 := by
    exact_mod_cast sub_nonpos.mpr hts
  simp only [decayDispatch, LinearDecay.compute_weight]
  have hstep : v.original_weight ≤
      v.original_weight - 0.001 * ((now - v.timestamp : ℤ) : ℝ) := by
    nlinarith
  exact le_trans hstep (le_max_left _ _)

theorem calculate_weight_age_unclamped_witness :
    (WeightEngine.new).cache.lookup futureVote.voter_id = none ∧
    (((WeightEngine.new).calculate_weight futureVote 0 none).1 =
      decayDispatch futureVote.decay_model futureVote.original_weight
        ((0 - futureVote.timestamp : ℤ) : ℝ) ∧
    (futureVote.decay_model = DecayType.Linear → (0 : ℤ) ≤ futureVote.timestamp →
      0 ≤ futureVote.original_weight →
      futureVote.original_weight ≤ ((WeightEngine.new).calculate_weight futureVote 0 none).1)) :=
  ⟨rfl, calculate_weight_age_unclamped WeightEngine.new futureVote 0 rfl⟩
